import Mathlib

/-!
# Signaling relay: `internal/adapters/http/signaling_handler.go`

A shallow embedding of `SignalingHandler` and of the process-wide registry `Peers`.

* Connection handles (`*websocket.Conn`) are natural numbers; two handles are the same
  connection exactly when the numbers are equal.
* The registry (`sync.Map`) is a finite map, written as a function from keys to optional
  records, with `Load`, `Store` and `Delete`.
* Every call on a connection (`WriteMessage`, `Close`) is appended, with its outcome, to the
  list `events` of the world. The outcome of a call is chosen by the environment and is an
  argument of the step that makes the call.
* Go strings used as identifiers are Lean strings; frame contents (`[]byte`) are byte lists.
* Calls to `log` have no effect on registry or connections and are left out.
* The blocks of the handler are functions on the world. The process with all its sessions is
  the structure `Relay`, whose steps call these functions; a session enters it only through
  `setup`, that is through lines 36-87 of the handler.
-/

namespace Signaling

/-- A connection handle (`*websocket.Conn`). -/
abbrev WsConn := Nat

/-- A point in time (`time.Time`). -/
abbrev Time := Nat

/-- Frame contents (`[]byte`). -/
abbrev Bytes := List UInt8

/-- The conversion `[]byte(s)`. -/
def bytesOf (s : String) : Bytes := s.toUTF8.data.toList

deriving instance DecidableEq for Except

/-- Go `error` values seen by the handler. -/
inductive Error where
  /-- The value of `echo.NewHTTPError(code, message)`. -/
  | httpError (code : Nat) (message : String)
  /-- An error returned by a connection or library call. -/
  | failure (text : String)
deriving DecidableEq, Repr

def StatusBadRequest : Nat := 400

def StatusInternalServerError : Nat := 500

/-- The record `PeerConnection` stored in the registry. -/
structure PeerConnection where
  Conn : WsConn
  LastActive : Time
deriving DecidableEq, Repr

/-- The registry `Peers` (`sync.Map`), keyed by peer identifier. -/
abbrev Registry := String → Option PeerConnection

def Load (m : Registry) (key : String) : Option PeerConnection := m key

def Store (m : Registry) (key : String) (value : PeerConnection) : Registry :=
  fun k => if k = key then some value else m k

def Delete (m : Registry) (key : String) : Registry :=
  fun k => if k = key then none else m k

/-- The registry of a freshly started process. -/
def emptyRegistry : Registry := fun _ => none

/-- A call made on a connection, with what the call returned (`none` is the nil error). -/
inductive Event where
  | writeMessage (conn : WsConn) (data : Bytes) (res : Option Error)
  | close (conn : WsConn) (res : Option Error)
deriving DecidableEq, Repr

/-- The connection an event is a call on. -/
def Event.conn : Event → WsConn
  | .writeMessage c _ _ => c
  | .close c _ => c

/-- The shared state: the registry and the calls made on connections so far, oldest first. -/
structure World where
  Peers : Registry
  events : List Event

/-- The world of a freshly started process. -/
def World.init : World := ⟨emptyRegistry, []⟩

/-- The call `conn.Close()` returning `res`. -/
def World.Close (w : World) (conn : WsConn) (res : Option Error) : World :=
  { w with events := w.events ++ [Event.close conn res] }

/-- The call `conn.WriteMessage(websocket.TextMessage, data)` returning `res`. -/
def World.WriteMessage (w : World) (conn : WsConn) (data : Bytes) (res : Option Error) : World :=
  { w with events := w.events ++ [Event.writeMessage conn data res] }

/-! ## The identifier check of the external package `github.com/google/uuid` -/

/-- The hexadecimal digits accepted by the package's `xtob`. -/
def isHexDigit (c : Char) : Bool :=
  ('0' ≤ c && c ≤ '9') || ('a' ≤ c && c ≤ 'f') || ('A' ≤ c && c ≤ 'F')

/-- The form `xxxxxxxx-xxxx-xxxx-xxxx-xxxxxxxxxxxx` on exactly 36 characters. -/
def isCanonical36 (cs : List Char) : Bool :=
  cs.length == 36 &&
  (List.range 36).all fun i =>
    if i = 8 ∨ i = 13 ∨ i = 18 ∨ i = 23 then cs.getD i ' ' == '-' else isHexDigit (cs.getD i ' ')

/-- Modelled from the spec: `uuid.Parse` belongs to the external package
`github.com/google/uuid`, whose source is not part of the repository; the spec asks for a string
that is "syntactically a UUID". The check follows the forms the package accepts, selected by
length: 36 (canonical), 45 (`urn:uuid:` in any letter case, then canonical), 38 (one byte before
and one after a canonical form), 32 (hexadecimal digits only); every other length, the empty
string included, is an error. -/
def uuidSyntaxOk (s : String) : Bool :=
  let cs := s.data
  match cs.length with
  | 36 => isCanonical36 cs
  | 45 => (cs.take 9).map Char.toLower == "urn:uuid:".data && isCanonical36 (cs.drop 9)
  | 38 => (cs.getD 0 ' ').toNat < 128 && (cs.getD 37 ' ').toNat < 128 &&
          isCanonical36 ((cs.drop 1).take 36)
  | 32 => cs.all isHexDigit
  | _ => false

/-- The call `uuid.Parse(s)`, of which the handler uses only the error. -/
def uuidParse (s : String) : Option Error :=
  if uuidSyntaxOk s then none else some (Error.failure "invalid UUID")

/-! ## Decoded frames (`encoding/json` into `map[string]interface{}`) -/

/-- A value held in an `interface{}` after `json.Unmarshal`. -/
inductive JsonValue where
  | null
  | bool (b : Bool)
  | number (text : String)
  | string (s : String)
  | array (items : List JsonValue)
  | object (fields : List (String × JsonValue))

/-- The decoded object `map[string]interface{}`; a key that is missing reads as `none`. -/
abbrev Payload := String → Option JsonValue

/-- The type assertion `v.(string)` in its two-result form. -/
def assertString : Option JsonValue → String × Bool
  | some (JsonValue.string s) => (s, true)
  | _ => ("", false)

/-! ## `SignalingHandler`, block by block -/

/-- Lines 41-74: the identifier of the session. `newV7` is what `uuid.NewV7()` returns (the
identifier in its string form), `writeRes` and `closeRes` what `conn.WriteMessage` and
`conn.Close` return when they are called. The variable `peerId` is declared on line 41 and still
holds the empty string when line 65 passes it to `uuid.Parse`. -/
def resolvePeerId (conn : WsConn) (clientPeerId : String) (newV7 : Except Error String)
    (writeRes closeRes : Option Error) (w : World) : World × Except Error String :=
  let peerId : String := ""
  if clientPeerId = "" then
    match newV7 with
    | .error _ =>
      let w1 := w.Close conn closeRes
      match closeRes with
      | some err => (w1, .error err)
      | none => (w1, .error (Error.httpError StatusInternalServerError "Failed to generate peerId"))
    | .ok uid =>
      let peerId := uid
      let w1 := w.WriteMessage conn (bytesOf peerId) writeRes
      match writeRes with
      | some _ =>
        let w2 := w1.Close conn closeRes
        match closeRes with
        | some err => (w2, .error err)
        | none => (w2, .error (Error.httpError StatusInternalServerError "Failed to send peerId"))
      | none => (w1, .ok peerId)
  else
    match uuidParse peerId with
    | some _ =>
      let w1 := w.Close conn closeRes
      match closeRes with
      | some err => (w1, .error err)
      | none => (w1, .error (Error.httpError StatusBadRequest "Invalid peerId"))
    | none => (w, .ok clientPeerId)

/-- Lines 76-87: close the connection of an entry already stored under `peerId`, then store the
new entry. `closeRes` is what `oldPeer.Conn.Close()` returns, `now` is `time.Now()`. -/
def register (peerId : String) (conn : WsConn) (now : Time) (closeRes : Option Error)
    (w : World) : World × Except Error Unit :=
  match Load w.Peers peerId with
  | some oldPeer =>
    let w1 := w.Close oldPeer.Conn closeRes
    match closeRes with
    | some err => (w1, .error err)
    | none => ({ w1 with Peers := Store w1.Peers peerId ⟨conn, now⟩ }, .ok ())
  | none => ({ w with Peers := Store w.Peers peerId ⟨conn, now⟩ }, .ok ())

/-- Lines 36-87: upgrade, identifier, registration. On success the handler goes on with the
session `(conn, peerId)`. At most one `WriteMessage` and one `Close` are called on the way. -/
def setup (upgradeRes : Except Error WsConn) (clientPeerId : String)
    (newV7 : Except Error String) (writeRes closeRes : Option Error) (now : Time)
    (w : World) : World × Except Error (WsConn × String) :=
  match upgradeRes with
  | .error _ =>
    (w, .error (Error.httpError StatusInternalServerError "Failed to upgrade to WebSocket"))
  | .ok conn =>
    match resolvePeerId conn clientPeerId newV7 writeRes closeRes w with
    | (w1, .error err) => (w1, .error err)
    | (w1, .ok peerId) =>
      match register peerId conn now closeRes w1 with
      | (w2, .error err) => (w2, .error err)
      | (w2, .ok _) => (w2, .ok (conn, peerId))

/-- Lines 89-99: the deferred function, run when the handler returns after registration.
`closeRes` is what `peer.Conn.Close()` returns. The function reads `peerId` only. -/
def cleanup (peerId : String) (closeRes : Option Error) (w : World) : World :=
  match Load w.Peers peerId with
  | some peer =>
    let w1 := w.Close peer.Conn closeRes
    match closeRes with
    | some _ => w1
    | none => { w1 with Peers := Delete w1.Peers peerId }
  | none => w

/-- Lines 90-95: the deferred function up to the close of the stored connection. The boolean is
`true` when the function goes on to `Peers.Delete` on line 96, `false` when it returns. -/
def cleanupClose (peerId : String) (closeRes : Option Error) (w : World) : World × Bool :=
  match Load w.Peers peerId with
  | some peer =>
    let w1 := w.Close peer.Conn closeRes
    match closeRes with
    | some _ => (w1, false)
    | none => (w1, true)
  | none => (w, false)

/-- Line 96: the call `Peers.Delete(peerId)` of the deferred function. -/
def cleanupDelete (peerId : String) (w : World) : World :=
  { w with Peers := Delete w.Peers peerId }

/-- Line 107: the check of the heartbeat goroutine after the ticker fired; `false` when the
identifier has no entry, in which case the goroutine returns. -/
def heartbeatLoad (peerId : String) (w : World) : Bool := (Load w.Peers peerId).isSome

/-- Line 110: the write of the heartbeat goroutine, with the connection `conn` of its handler
and `now` for `time.Now()`. -/
def heartbeatStore (peerId : String) (conn : WsConn) (now : Time) (w : World) : World :=
  { w with Peers := Store w.Peers peerId ⟨conn, now⟩ }

/-- How one round of the loop on lines 114-155 ends. -/
inductive LoopStep where
  /-- The next round starts (`continue`, or the end of the loop body). -/
  | continueLoop
  /-- The statement `break`: the handler returns `nil` after the loop. -/
  | breakLoop
  /-- The statement `return err` inside the loop. -/
  | returnErr (err : Error)
deriving DecidableEq, Repr

/-- Lines 115-154: one round of the read loop of the session with connection `conn`.
`unmarshal` is `json.Unmarshal` into a `map[string]interface{}`, `readRes` what
`conn.ReadMessage()` returns and `writeRes` what the one `WriteMessage` of the round returns. -/
def routerStep (unmarshal : Bytes → Except Error Payload) (conn : WsConn)
    (readRes : Except Error Bytes) (writeRes : Option Error) (w : World) : World × LoopStep :=
  match readRes with
  | .error _ => (w, .breakLoop)
  | .ok msg =>
    match unmarshal msg with
    | .error _ =>
      let w1 := w.WriteMessage conn (bytesOf "Error: Invalid message format") writeRes
      match writeRes with
      | some err => (w1, .returnErr err)
      | none => (w1, .continueLoop)
    | .ok payload =>
      let (targetId, ok) := assertString (payload "targetId")
      if !ok || targetId = "" then
        let w1 := w.WriteMessage conn (bytesOf "Error: Missing or invalid targetId") writeRes
        match writeRes with
        | some err => (w1, .returnErr err)
        | none => (w1, .continueLoop)
      else
        match Load w.Peers targetId with
        | some targetPeer =>
          let targetConn := targetPeer.Conn
          (w.WriteMessage targetConn msg writeRes, .continueLoop)
        | none =>
          let w1 := w.WriteMessage conn (bytesOf "Error: Target peer not found") writeRes
          match writeRes with
          | some err => (w1, .returnErr err)
          | none => (w1, .continueLoop)

/-- What is known of a call of the handler once the environment has played its rounds. -/
inductive Outcome where
  /-- The handler returned; `none` is `return nil`. -/
  | returned (err : Option Error)
  /-- The handler is waiting in `conn.ReadMessage()`. -/
  | reading
deriving DecidableEq, Repr

/-- Lines 114-155: the read loop over the rounds the environment plays, each round given by what
`ReadMessage` returns and what the `WriteMessage` of the round returns. The loop is left by
`break` (the handler then returns `nil`, line 157) or by `return err`. -/
def readLoop (unmarshal : Bytes → Except Error Payload) (conn : WsConn) :
    List (Except Error Bytes × Option Error) → World → World × Outcome
  | [], w => (w, .reading)
  | (readRes, writeRes) :: rest, w =>
    match routerStep unmarshal conn readRes writeRes w with
    | (w1, .continueLoop) => readLoop unmarshal conn rest w1
    | (w1, .breakLoop) => (w1, .returned none)
    | (w1, .returnErr err) => (w1, .returned (some err))

/-- Lines 35-158: one call of the handler, with no step of another session and no round of its own
heartbeat in between. The deferred function is registered on line 89, after registration, so it
runs only when the handler returns from the read loop; `deferCloseRes` is what its `Close`
returns. -/
def SignalingHandler (unmarshal : Bytes → Except Error Payload)
    (upgradeRes : Except Error WsConn) (clientPeerId : String) (newV7 : Except Error String)
    (writeRes closeRes : Option Error) (now : Time)
    (rounds : List (Except Error Bytes × Option Error)) (deferCloseRes : Option Error)
    (w : World) : World × Outcome :=
  match setup upgradeRes clientPeerId newV7 writeRes closeRes now w with
  | (w1, .error err) => (w1, .returned (some err))
  | (w1, .ok (conn, peerId)) =>
    match readLoop unmarshal conn rounds w1 with
    | (w2, .reading) => (w2, .reading)
    | (w2, .returned res) => (cleanup peerId deferCloseRes w2, .returned res)

/-! ## The sessions of the process on the shared registry

Handlers and heartbeat goroutines of all sessions run concurrently. A run of the process is a
sequence of steps of its goroutines. The check and the write of the heartbeat (lines 107 and
110) are two steps, and so are the close and the delete of the deferred function (lines 92 and
96). A handler call up to the end of registration is one step: it runs under an identifier of
its own, under which the registry has no entry (`fresh_identifier_has_no_entry`). -/

/-- Where the handler of a registered session stands. -/
inductive HandlerPhase where
  /-- In the read loop, lines 114-155. -/
  | reading
  /-- The loop is left and the handler returns `res`; the deferred function has not started. -/
  | exiting (res : Option Error)
  /-- The deferred function has closed the connection (line 92) and not yet deleted (line 96). -/
  | deleting (res : Option Error)
  /-- The handler has returned `res`. -/
  | returned (res : Option Error)
deriving DecidableEq, Repr

/-- Where the heartbeat goroutine of a registered session stands. -/
inductive HeartbeatPhase where
  /-- Waiting for the ticker, line 106. -/
  | waiting
  /-- The check on line 107 found an entry; the write on line 110 has not happened. -/
  | loaded
  /-- The goroutine has returned, line 108. -/
  | stopped
deriving DecidableEq, Repr

/-- A session that has passed registration: the variables `peerId` and `conn` of its handler,
and where its two goroutines stand. -/
structure Session where
  peerId : String
  conn : WsConn
  handler : HandlerPhase
  heartbeat : HeartbeatPhase
deriving DecidableEq, Repr

/-- The process: the shared world and the sessions that have registered, oldest first. -/
structure Relay where
  world : World
  sessions : List Session

/-- The process at start. -/
def Relay.init : Relay := ⟨World.init, []⟩

/-- The session registered under `peerId`. -/
def Relay.session (s : Relay) (peerId : String) : Option Session :=
  s.sessions.find? (fun x => x.peerId = peerId)

/-- The sessions with the handler of the session under `peerId` moved to phase `h`. -/
def setHandler (peerId : String) (h : HandlerPhase) (l : List Session) : List Session :=
  l.map fun x => if x.peerId = peerId then { x with handler := h } else x

/-- The sessions with the heartbeat of the session under `peerId` moved to phase `h`. -/
def setHeartbeat (peerId : String) (h : HeartbeatPhase) (l : List Session) : List Session :=
  l.map fun x => if x.peerId = peerId then { x with heartbeat := h } else x

/-- One step of one goroutine. -/
inductive Step where
  /-- A call of the handler from the upgrade to the end of registration, lines 36-87. Up to
  line 75 the call touches its own connection only; see `exec` for the identifier. -/
  | connect (upgradeRes : Except Error WsConn) (clientPeerId : String)
      (newV7 : Except Error String) (writeRes closeRes : Option Error) (now : Time)
  /-- One round of the read loop of the session registered under `peerId`. -/
  | round (peerId : String) (readRes : Except Error Bytes) (writeRes : Option Error)
  /-- Lines 90-95 of the deferred function of the session. -/
  | deferredClose (peerId : String) (closeRes : Option Error)
  /-- Line 96 of the deferred function of the session. -/
  | deferredDelete (peerId : String)
  /-- Line 107 of the heartbeat of the session, after its ticker fired. -/
  | heartbeatLoad (peerId : String)
  /-- Line 110 of the heartbeat of the session. -/
  | heartbeatStore (peerId : String) (now : Time)

/-- The effect of a step. A step that the goroutine cannot take where it stands leaves the
process as it is.

Modelled from the spec: `uuid.NewV7` belongs to the external package `github.com/google/uuid`;
by section 4.2 of the spec it yields a "globally-unique identifier". A `connect` in which
`NewV7` returns an identifier under which a session has registered is therefore not a step of
the process and leaves it as it is. -/
def exec (unmarshal : Bytes → Except Error Payload) : Step → Relay → Relay
  | .connect upgradeRes clientPeerId newV7 writeRes closeRes now, s =>
    match setup upgradeRes clientPeerId newV7 writeRes closeRes now s.world with
    | (w1, .error _) => { s with world := w1 }
    | (w1, .ok (conn, peerId)) =>
      if (s.session peerId).isSome then s
      else ⟨w1, s.sessions ++ [⟨peerId, conn, .reading, .waiting⟩]⟩
  | .round peerId readRes writeRes, s =>
    match s.session peerId with
    | some sess =>
      if sess.handler = .reading then
        match routerStep unmarshal sess.conn readRes writeRes s.world with
        | (w1, .continueLoop) => { s with world := w1 }
        | (w1, .breakLoop) => ⟨w1, setHandler peerId (.exiting none) s.sessions⟩
        | (w1, .returnErr err) => ⟨w1, setHandler peerId (.exiting (some err)) s.sessions⟩
      else s
    | none => s
  | .deferredClose peerId closeRes, s =>
    match s.session peerId with
    | some sess =>
      match sess.handler with
      | .exiting res =>
        match cleanupClose peerId closeRes s.world with
        | (w1, true) => ⟨w1, setHandler peerId (.deleting res) s.sessions⟩
        | (w1, false) => ⟨w1, setHandler peerId (.returned res) s.sessions⟩
      | _ => s
    | none => s
  | .deferredDelete peerId, s =>
    match s.session peerId with
    | some sess =>
      match sess.handler with
      | .deleting res =>
        ⟨cleanupDelete peerId s.world, setHandler peerId (.returned res) s.sessions⟩
      | _ => s
    | none => s
  | .heartbeatLoad peerId, s =>
    match s.session peerId with
    | some sess =>
      if sess.heartbeat = .waiting then
        if heartbeatLoad peerId s.world then
          { s with sessions := setHeartbeat peerId .loaded s.sessions }
        else { s with sessions := setHeartbeat peerId .stopped s.sessions }
      else s
    | none => s
  | .heartbeatStore peerId now, s =>
    match s.session peerId with
    | some sess =>
      if sess.heartbeat = .loaded then
        ⟨heartbeatStore peerId sess.conn now s.world, setHeartbeat peerId .waiting s.sessions⟩
      else s
    | none => s

/-- The process after the steps, taken in order. -/
def runSteps (unmarshal : Bytes → Except Error Payload) (steps : List Step) (s : Relay) :
    Relay :=
  steps.foldl (fun acc step => exec unmarshal step acc) s

/-- The connections registered under `id`, oldest first. -/
def registeredUnder (s : Relay) (id : String) : List WsConn :=
  (s.sessions.filter (fun x => x.peerId = id)).map (fun x => x.conn)

/-- A connection has been closed when a `Close` call on it returned without error. -/
def closed (w : World) (conn : WsConn) : Prop := Event.close conn none ∈ w.events

instance (w : World) (conn : WsConn) : Decidable (closed w conn) := by
  unfold closed; infer_instance

/-- The calls made on connections between the world `w` and a later world `w1`. -/
def callsSince (w w1 : World) : List Event := w1.events.drop w.events.length

/-! ## Concrete frames and worlds used in the worked examples -/

/-- The frame whose content is the JSON object with the single field `targetId`. -/
def frameTo (targetId : String) : Bytes :=
  bytesOf ("\x7b\"targetId\":\"" ++ targetId ++ "\"\x7d")

/-- The frame whose content is the empty JSON object. -/
def frameEmptyObject : Bytes := bytesOf "\x7b\x7d"

/-- The object decoded from `frameTo targetId`. -/
def targetOnly (targetId : String) : Payload :=
  fun k => if k = "targetId" then some (JsonValue.string targetId) else none

/-- The object decoded from `frameEmptyObject`. -/
def emptyObject : Payload := fun _ => none

/-- A decoder that returns what `json.Unmarshal` returns on the three frames used in the worked
examples, and is not used on any other frame. -/
def exampleUnmarshal (msg : Bytes) : Except Error Payload :=
  if msg = frameTo "A" then .ok (targetOnly "A")
  else if msg = frameTo "B" then .ok (targetOnly "B")
  else if msg = frameEmptyObject then .ok emptyObject
  else .error (Error.failure "frame outside the worked examples")

/-- A registry with one entry, stored under `id` for the connection `conn` at time `0`. -/
def oneEntry (id : String) (conn : WsConn) : World := ⟨Store emptyRegistry id ⟨conn, 0⟩, []⟩

/-- A well-formed identifier in canonical form. -/
def sampleUuid : String := "123e4567-e89b-12d3-a456-426614174000"

/-- Every entry of the registry belongs to a registered session: no two sessions have the same
identifier, and an entry holds the connection of the session registered under its key. -/
def Relay.Owned (s : Relay) : Prop :=
  (s.sessions.map (fun x => x.peerId)).Nodup ∧
  ∀ id pc, Load s.world.Peers id = some pc →
    ∃ sess ∈ s.sessions, sess.peerId = id ∧ sess.conn = pc.Conn

/-- The states the process can be in: those reached from its start by some steps. -/
def Reachable (unmarshal : Bytes → Except Error Payload) (s : Relay) : Prop :=
  ∃ steps, runSteps unmarshal steps Relay.init = s

/-! ## Theorems -/

/-- C1 (counterexample). The session registered under `A`, with connection `1`, sends a frame
addressed to `A` itself: the frame is written to connection `1`, so the round does send
something to the sender. -/
theorem C1_self_addressed_frame_reaches_sender :
    exampleUnmarshal (frameTo "A") = .ok (targetOnly "A") ∧
    targetOnly "A" "targetId" = some (JsonValue.string "A") ∧
    Load (oneEntry "A" 1).Peers "A" = some ⟨1, 0⟩ ∧
    Event.writeMessage 1 (frameTo "A") none ∈
      callsSince (oneEntry "A" 1)
        (routerStep exampleUnmarshal 1 (.ok (frameTo "A")) none (oneEntry "A" 1)).1 :=
  ⟨rfl, rfl, rfl, by decide⟩

/-- C1 (amended). When the received frame decodes to an object whose `targetId` is a non-empty
string with an entry in the registry, one round of the read loop makes exactly one call: it
writes the received bytes, unchanged, to the connection stored under `targetId`. Nothing is
written to the sender unless the sender's own connection is the one stored under `targetId`.
The registry is unchanged and the loop continues, whatever the write returns. -/
theorem C1_forward_to_target (unmarshal : Bytes → Except Error Payload) (w : World)
    (conn : WsConn) (msg : Bytes) (payload : Payload) (targetId : String)
    (target : PeerConnection) (writeRes : Option Error)
    (hparse : unmarshal msg = .ok payload)
    (hfield : payload "targetId" = some (JsonValue.string targetId))
    (hne : targetId ≠ "")
    (hreg : Load w.Peers targetId = some target) :
    (routerStep unmarshal conn (.ok msg) writeRes w).1.events
        = w.events ++ [Event.writeMessage target.Conn msg writeRes] ∧
    callsSince w (routerStep unmarshal conn (.ok msg) writeRes w).1
        = [Event.writeMessage target.Conn msg writeRes] ∧
    (target.Conn ≠ conn →
      ∀ e ∈ callsSince w (routerStep unmarshal conn (.ok msg) writeRes w).1, e.conn ≠ conn) ∧
    (routerStep unmarshal conn (.ok msg) writeRes w).1.Peers = w.Peers ∧
    (routerStep unmarshal conn (.ok msg) writeRes w).2 = LoopStep.continueLoop := by
  simp [routerStep, hparse, hfield, assertString, hne, hreg, World.WriteMessage, callsSince,
    Event.conn]

/-- C1 (witness). Session `A` on connection `1` sends a frame addressed to `B`, stored with
connection `2`, and the write to connection `2` fails. -/
theorem C1_forward_to_target_witness :
    (routerStep exampleUnmarshal 1 (.ok (frameTo "B")) (some (Error.failure "broken pipe"))
        (oneEntry "B" 2)).1.events
        = (oneEntry "B" 2).events ++
          [Event.writeMessage 2 (frameTo "B") (some (Error.failure "broken pipe"))] ∧
    callsSince (oneEntry "B" 2)
        (routerStep exampleUnmarshal 1 (.ok (frameTo "B")) (some (Error.failure "broken pipe"))
          (oneEntry "B" 2)).1
        = [Event.writeMessage 2 (frameTo "B") (some (Error.failure "broken pipe"))] ∧
    ((2 : WsConn) ≠ 1 →
      ∀ e ∈ callsSince (oneEntry "B" 2)
        (routerStep exampleUnmarshal 1 (.ok (frameTo "B")) (some (Error.failure "broken pipe"))
          (oneEntry "B" 2)).1, e.conn ≠ 1) ∧
    (routerStep exampleUnmarshal 1 (.ok (frameTo "B")) (some (Error.failure "broken pipe"))
        (oneEntry "B" 2)).1.Peers = (oneEntry "B" 2).Peers ∧
    (routerStep exampleUnmarshal 1 (.ok (frameTo "B")) (some (Error.failure "broken pipe"))
        (oneEntry "B" 2)).2 = LoopStep.continueLoop :=
  C1_forward_to_target exampleUnmarshal (oneEntry "B" 2) 1 (frameTo "B") (targetOnly "B") "B"
    ⟨2, 0⟩ (some (Error.failure "broken pipe")) rfl rfl (by decide) rfl

/-- C7. When the received frame decodes to an object that has no `targetId`, or whose
`targetId` is the empty string, one round of the read loop sends exactly one frame,
`Error: Missing or invalid targetId`, to the sender. No other connection is written to, no
connection is closed, the registry is unchanged, and the session continues: the read loop goes
on with the next round. The send is a send that succeeds; a write that fails is a failure of
the transport of the session, which ends it. -/
theorem C7_missing_target (unmarshal : Bytes → Except Error Payload) (w : World)
    (conn : WsConn) (msg : Bytes) (payload : Payload)
    (rest : List (Except Error Bytes × Option Error))
    (hparse : unmarshal msg = .ok payload)
    (hfield : payload "targetId" = none ∨ payload "targetId" = some (JsonValue.string "")) :
    callsSince w (routerStep unmarshal conn (.ok msg) none w).1
        = [Event.writeMessage conn (bytesOf "Error: Missing or invalid targetId") none] ∧
    (routerStep unmarshal conn (.ok msg) none w).1.events
        = w.events ++ callsSince w (routerStep unmarshal conn (.ok msg) none w).1 ∧
    (∀ e ∈ callsSince w (routerStep unmarshal conn (.ok msg) none w).1, e.conn = conn) ∧
    (∀ c r, Event.close c r ∉ callsSince w (routerStep unmarshal conn (.ok msg) none w).1) ∧
    (routerStep unmarshal conn (.ok msg) none w).1.Peers = w.Peers ∧
    (routerStep unmarshal conn (.ok msg) none w).2 = LoopStep.continueLoop ∧
    readLoop unmarshal conn ((.ok msg, none) :: rest) w
        = readLoop unmarshal conn rest (routerStep unmarshal conn (.ok msg) none w).1 := by
  rcases hfield with hfield | hfield <;>
    simp [readLoop, routerStep, hparse, hfield, assertString, World.WriteMessage, callsSince,
      Event.conn]

/-- C7 (witness). The empty object arrives on connection `1`, followed by a failed read. -/
theorem C7_missing_target_witness :
    callsSince World.init (routerStep exampleUnmarshal 1 (.ok frameEmptyObject) none World.init).1
        = [Event.writeMessage 1 (bytesOf "Error: Missing or invalid targetId") none] ∧
    (routerStep exampleUnmarshal 1 (.ok frameEmptyObject) none World.init).1.events
        = World.init.events ++
          callsSince World.init
            (routerStep exampleUnmarshal 1 (.ok frameEmptyObject) none World.init).1 ∧
    (∀ e ∈ callsSince World.init
        (routerStep exampleUnmarshal 1 (.ok frameEmptyObject) none World.init).1, e.conn = 1) ∧
    (∀ c r, Event.close c r ∉ callsSince World.init
        (routerStep exampleUnmarshal 1 (.ok frameEmptyObject) none World.init).1) ∧
    (routerStep exampleUnmarshal 1 (.ok frameEmptyObject) none World.init).1.Peers
        = World.init.Peers ∧
    (routerStep exampleUnmarshal 1 (.ok frameEmptyObject) none World.init).2
        = LoopStep.continueLoop ∧
    readLoop exampleUnmarshal 1
        [(.ok frameEmptyObject, none), (.error (Error.failure "connection reset"), none)]
        World.init
        = readLoop exampleUnmarshal 1 [(.error (Error.failure "connection reset"), none)]
          (routerStep exampleUnmarshal 1 (.ok frameEmptyObject) none World.init).1 :=
  C7_missing_target exampleUnmarshal World.init 1 frameEmptyObject emptyObject
    [(.error (Error.failure "connection reset"), none)] rfl (Or.inl rfl)

/-- C8. When the `targetId` of the received frame is a non-empty string with no entry in the
registry, one round of the read loop sends the sender the text frame
`Error: Target peer not found`, which starts with `Error: `. That is the only call of the
round: the received frame is forwarded to no connection and no connection is closed. The
registry is unchanged and the read loop goes on with the next round. The send is a send that
succeeds; a write that fails is a failure of the transport of the session, which ends it. -/
theorem C8_target_not_found (unmarshal : Bytes → Except Error Payload) (w : World)
    (conn : WsConn) (msg : Bytes) (payload : Payload) (targetId : String)
    (rest : List (Except Error Bytes × Option Error))
    (hparse : unmarshal msg = .ok payload)
    (hfield : payload "targetId" = some (JsonValue.string targetId))
    (hne : targetId ≠ "")
    (hreg : Load w.Peers targetId = none) :
    callsSince w (routerStep unmarshal conn (.ok msg) none w).1
        = [Event.writeMessage conn (bytesOf "Error: Target peer not found") none] ∧
    "Error: Target peer not found" = "Error: " ++ "Target peer not found" ∧
    (routerStep unmarshal conn (.ok msg) none w).1.events
        = w.events ++ callsSince w (routerStep unmarshal conn (.ok msg) none w).1 ∧
    (∀ e ∈ callsSince w (routerStep unmarshal conn (.ok msg) none w).1, e.conn = conn) ∧
    (∀ c r, Event.close c r ∉ callsSince w (routerStep unmarshal conn (.ok msg) none w).1) ∧
    (routerStep unmarshal conn (.ok msg) none w).1.Peers = w.Peers ∧
    (routerStep unmarshal conn (.ok msg) none w).2 = LoopStep.continueLoop ∧
    readLoop unmarshal conn ((.ok msg, none) :: rest) w
        = readLoop unmarshal conn rest (routerStep unmarshal conn (.ok msg) none w).1 := by
  refine ⟨?_, by decide, ?_⟩ <;>
    simp [readLoop, routerStep, hparse, hfield, assertString, hne, hreg, World.WriteMessage,
      callsSince, Event.conn]

/-- C8 (witness). Session `A` on connection `1` sends a frame addressed to `B`, which has no
entry; a failed read follows. -/
theorem C8_target_not_found_witness :
    callsSince (oneEntry "A" 1)
        (routerStep exampleUnmarshal 1 (.ok (frameTo "B")) none (oneEntry "A" 1)).1
        = [Event.writeMessage 1 (bytesOf "Error: Target peer not found") none] ∧
    "Error: Target peer not found" = "Error: " ++ "Target peer not found" ∧
    (routerStep exampleUnmarshal 1 (.ok (frameTo "B")) none (oneEntry "A" 1)).1.events
        = (oneEntry "A" 1).events ++
          callsSince (oneEntry "A" 1)
            (routerStep exampleUnmarshal 1 (.ok (frameTo "B")) none (oneEntry "A" 1)).1 ∧
    (∀ e ∈ callsSince (oneEntry "A" 1)
        (routerStep exampleUnmarshal 1 (.ok (frameTo "B")) none (oneEntry "A" 1)).1,
      e.conn = 1) ∧
    (∀ c r, Event.close c r ∉ callsSince (oneEntry "A" 1)
        (routerStep exampleUnmarshal 1 (.ok (frameTo "B")) none (oneEntry "A" 1)).1) ∧
    (routerStep exampleUnmarshal 1 (.ok (frameTo "B")) none (oneEntry "A" 1)).1.Peers
        = (oneEntry "A" 1).Peers ∧
    (routerStep exampleUnmarshal 1 (.ok (frameTo "B")) none (oneEntry "A" 1)).2
        = LoopStep.continueLoop ∧
    readLoop exampleUnmarshal 1
        [(.ok (frameTo "B"), none), (.error (Error.failure "connection reset"), none)]
        (oneEntry "A" 1)
        = readLoop exampleUnmarshal 1 [(.error (Error.failure "connection reset"), none)]
          (routerStep exampleUnmarshal 1 (.ok (frameTo "B")) none (oneEntry "A" 1)).1 :=
  C8_target_not_found exampleUnmarshal (oneEntry "A" 1) 1 (frameTo "B") (targetOnly "B") "B"
    [(.error (Error.failure "connection reset"), none)] rfl rfl (by decide) rfl

/-- C3 (evaluation at the failing input). A client is registered under the generated
identifier `X` with connection `1` and is in its read loop. It connects again on connection
`2` with `peerId` set to `X`. The second call never reaches the registration block: it returns
the bad-request error, its one call closes the new connection `2`, the old connection `1` is
not closed, and the entry under `X` still holds connection `1`. -/
theorem C3_reconnect_does_not_replace :
    (SignalingHandler exampleUnmarshal (.ok 1) "" (.ok sampleUuid) none none 10 [] none
        World.init).2 = Outcome.reading ∧
    Load (SignalingHandler exampleUnmarshal (.ok 1) "" (.ok sampleUuid) none none 10 [] none
        World.init).1.Peers sampleUuid = some ⟨1, 10⟩ ∧
    (SignalingHandler exampleUnmarshal (.ok 2) sampleUuid (.ok "unused") none none 20 [] none
        (SignalingHandler exampleUnmarshal (.ok 1) "" (.ok sampleUuid) none none 10 [] none
          World.init).1).2
        = Outcome.returned (some (Error.httpError StatusBadRequest "Invalid peerId")) ∧
    callsSince
        (SignalingHandler exampleUnmarshal (.ok 1) "" (.ok sampleUuid) none none 10 [] none
          World.init).1
        (SignalingHandler exampleUnmarshal (.ok 2) sampleUuid (.ok "unused") none none 20 []
          none
          (SignalingHandler exampleUnmarshal (.ok 1) "" (.ok sampleUuid) none none 10 [] none
            World.init).1).1 = [Event.close 2 none] ∧
    Load (SignalingHandler exampleUnmarshal (.ok 2) sampleUuid (.ok "unused") none none 20 []
        none
        (SignalingHandler exampleUnmarshal (.ok 1) "" (.ok sampleUuid) none none 10 [] none
          World.init).1).1.Peers sampleUuid = some ⟨1, 10⟩ := by
  decide

/-- C4 (counterexample). `X` is stored with connection `1`; the read of the session fails, the
loop is left and the deferred function runs, and closing connection `1` returns an error: the
entry for `X` is still in the registry. -/
theorem C4_close_error_keeps_entry :
    routerStep exampleUnmarshal 1 (.error (Error.failure "connection reset")) none
        (oneEntry "X" 1) = (oneEntry "X" 1, LoopStep.breakLoop) ∧
    Load (cleanup "X" (some (Error.failure "close failed")) (oneEntry "X" 1)).Peers "X"
        = some ⟨1, 0⟩ :=
  ⟨rfl, by decide⟩

/-- C4 (amended). A failed read ends the loop without touching the world. The deferred function
then leaves the entries of all other identifiers unchanged. If the registry holds an entry for
the identifier of the session, the function makes exactly one call, closing the connection of
that entry; if the close succeeds the entry is removed, and if the close returns an error the
entry stays. If the registry holds no entry for the identifier, nothing happens. -/
theorem C4_cleanup_after_read_error (unmarshal : Bytes → Except Error Payload) (w : World)
    (conn : WsConn) (id : String) (readErr : Error) (writeRes closeRes : Option Error) :
    routerStep unmarshal conn (.error readErr) writeRes w = (w, LoopStep.breakLoop) ∧
    (∀ k, k ≠ id → Load (cleanup id closeRes w).Peers k = Load w.Peers k) ∧
    (∀ peer, Load w.Peers id = some peer →
      (cleanup id closeRes w).events = w.events ++ [Event.close peer.Conn closeRes] ∧
      (closeRes = none → Load (cleanup id closeRes w).Peers id = none) ∧
      (∀ err, closeRes = some err → Load (cleanup id closeRes w).Peers id = some peer)) ∧
    (Load w.Peers id = none →
      (cleanup id closeRes w).events = w.events ∧ Load (cleanup id closeRes w).Peers id = none) := by
  refine ⟨rfl, ?_, ?_, ?_⟩
  · intro k hk
    unfold cleanup
    cases hl : Load w.Peers id <;> cases closeRes <;> simp [World.Close, Load, Delete, hk]
  · intro peer hpeer
    have hpeer1 : w.Peers id = some peer := hpeer
    cases closeRes <;> simp [cleanup, hpeer1, World.Close, Load, Delete]
  · intro habs
    have habs1 : w.Peers id = none := habs
    simp [cleanup, habs1, Load]

/-- C4 (witness). `X` is stored with connection `1` and `Y` with connection `2`; the session of
`X` ends and closing connection `1` succeeds: `X` is removed and `Y` is unchanged. -/
theorem C4_cleanup_after_read_error_witness :
    Load (cleanup "X" none ⟨Store (oneEntry "X" 1).Peers "Y" ⟨2, 3⟩, []⟩).Peers "X" = none ∧
    Load (cleanup "X" none ⟨Store (oneEntry "X" 1).Peers "Y" ⟨2, 3⟩, []⟩).Peers "Y"
        = some ⟨2, 3⟩ ∧
    (cleanup "X" none ⟨Store (oneEntry "X" 1).Peers "Y" ⟨2, 3⟩, []⟩).events
        = [Event.close 1 none] :=
  have h := C4_cleanup_after_read_error exampleUnmarshal
    ⟨Store (oneEntry "X" 1).Peers "Y" ⟨2, 3⟩, []⟩ 1 "X" (Error.failure "connection reset")
    none none
  ⟨(h.2.2.1 ⟨1, 0⟩ rfl).2.1 rfl, (h.2.1 "Y" (by decide)).trans rfl,
    (h.2.2.1 ⟨1, 0⟩ rfl).1⟩

/-- C2 (evaluation at the failing input). The client supplies a well-formed identifier and
closing the connection succeeds. Whatever the registry, the connection and the rounds that
would follow, the handler closes the connection, returns the bad-request error and leaves the
registry as it was: nothing is stored under the identifier. Line 65 checks the variable
`peerId`, which is still empty, in place of `clientPeerId`. -/
theorem C2_valid_peerId_rejected (unmarshal : Bytes → Except Error Payload) (w : World)
    (conn : WsConn) (newV7 : Except Error String) (writeRes : Option Error) (now : Time)
    (rounds : List (Except Error Bytes × Option Error)) (deferCloseRes : Option Error) :
    sampleUuid ≠ "" ∧
    uuidSyntaxOk sampleUuid = true ∧
    (SignalingHandler unmarshal (.ok conn) sampleUuid newV7 writeRes none now rounds
        deferCloseRes w).2
        = Outcome.returned (some (Error.httpError StatusBadRequest "Invalid peerId")) ∧
    (SignalingHandler unmarshal (.ok conn) sampleUuid newV7 writeRes none now rounds
        deferCloseRes w).1.events = w.events ++ [Event.close conn none] ∧
    (SignalingHandler unmarshal (.ok conn) sampleUuid newV7 writeRes none now rounds
        deferCloseRes w).1.Peers = w.Peers := by
  have hne : sampleUuid ≠ "" := by decide
  have hparse : uuidParse "" = some (Error.failure "invalid UUID") := by decide
  refine ⟨hne, by decide, ?_⟩
  simp [SignalingHandler, setup, resolvePeerId, hne, hparse, World.Close]

/-- C6 (counterexample). The client supplies `not-a-uuid` and closing the connection returns an
error: the handler returns the error of the close, which is not the bad-request error. -/
theorem C6_close_error_replaces_bad_request :
    "not-a-uuid" ≠ "" ∧
    uuidSyntaxOk "not-a-uuid" = false ∧
    (SignalingHandler exampleUnmarshal (.ok 7) "not-a-uuid" (.ok "unused") none
        (some (Error.failure "close failed")) 5 [] none World.init).2
        = Outcome.returned (some (Error.failure "close failed")) ∧
    (SignalingHandler exampleUnmarshal (.ok 7) "not-a-uuid" (.ok "unused") none
        (some (Error.failure "close failed")) 5 [] none World.init).2
        ≠ Outcome.returned (some (Error.httpError StatusBadRequest "Invalid peerId")) := by
  decide

/-- C6 (amended). For a non-empty client-supplied `peerId` that is not well formed, the handler
makes exactly one call, closing the connection, and leaves the registry exactly as it was. It
returns the bad-request error if the close succeeds, and the error of the close if the close
returns one. -/
theorem C6_invalid_peerId (unmarshal : Bytes → Except Error Payload) (w : World)
    (conn : WsConn) (clientPeerId : String) (newV7 : Except Error String)
    (writeRes closeRes : Option Error) (now : Time)
    (rounds : List (Except Error Bytes × Option Error)) (deferCloseRes : Option Error)
    (hne : clientPeerId ≠ "") (_hbad : uuidSyntaxOk clientPeerId = false) :
    (SignalingHandler unmarshal (.ok conn) clientPeerId newV7 writeRes closeRes now rounds
        deferCloseRes w).1.events = w.events ++ [Event.close conn closeRes] ∧
    (SignalingHandler unmarshal (.ok conn) clientPeerId newV7 writeRes closeRes now rounds
        deferCloseRes w).1.Peers = w.Peers ∧
    (closeRes = none →
      (SignalingHandler unmarshal (.ok conn) clientPeerId newV7 writeRes closeRes now rounds
        deferCloseRes w).2
        = Outcome.returned (some (Error.httpError StatusBadRequest "Invalid peerId"))) ∧
    (∀ err, closeRes = some err →
      (SignalingHandler unmarshal (.ok conn) clientPeerId newV7 writeRes closeRes now rounds
        deferCloseRes w).2 = Outcome.returned (some err)) := by
  have hparse : uuidParse "" = some (Error.failure "invalid UUID") := by decide
  cases closeRes <;> simp [SignalingHandler, setup, resolvePeerId, hne, hparse, World.Close]

/-- C6 (witness). The client supplies `not-a-uuid` on a registry that holds `X`, and the close
succeeds. -/
theorem C6_invalid_peerId_witness :
    (SignalingHandler exampleUnmarshal (.ok 7) "not-a-uuid" (.ok "unused") none none 5 [] none
        (oneEntry "X" 1)).1.events = (oneEntry "X" 1).events ++ [Event.close 7 none] ∧
    (SignalingHandler exampleUnmarshal (.ok 7) "not-a-uuid" (.ok "unused") none none 5 [] none
        (oneEntry "X" 1)).1.Peers = (oneEntry "X" 1).Peers ∧
    ((none : Option Error) = none →
      (SignalingHandler exampleUnmarshal (.ok 7) "not-a-uuid" (.ok "unused") none none 5 []
        none (oneEntry "X" 1)).2
        = Outcome.returned (some (Error.httpError StatusBadRequest "Invalid peerId"))) ∧
    (∀ err, (none : Option Error) = some err →
      (SignalingHandler exampleUnmarshal (.ok 7) "not-a-uuid" (.ok "unused") none none 5 []
        none (oneEntry "X" 1)).2 = Outcome.returned (some err)) :=
  C6_invalid_peerId exampleUnmarshal (oneEntry "X" 1) 7 "not-a-uuid" (.ok "unused") none none 5
    [] none (by decide) (by decide)

/-! ### The registry holds only entries of registered sessions -/

/-- The identifier block makes calls on the connection only: the registry is untouched. -/
theorem resolvePeerId_peers (conn : WsConn) (clientPeerId : String)
    (newV7 : Except Error String) (writeRes closeRes : Option Error) (w : World) :
    (resolvePeerId conn clientPeerId newV7 writeRes closeRes w).1.Peers = w.Peers := by
  have hparse : uuidParse "" = some (Error.failure "invalid UUID") := by decide
  by_cases hc : clientPeerId = "" <;> cases newV7 <;> cases writeRes <;> cases closeRes <;>
    simp [resolvePeerId, hc, hparse, World.Close, World.WriteMessage]

/-- The identifier block succeeds only with an empty `peerId` parameter, and then with the
identifier that `uuid.NewV7` generated. -/
theorem resolvePeerId_ok (conn : WsConn) (clientPeerId : String)
    (newV7 : Except Error String) (writeRes closeRes : Option Error) (w : World)
    (peerId : String)
    (h : (resolvePeerId conn clientPeerId newV7 writeRes closeRes w).2 = .ok peerId) :
    clientPeerId = "" ∧ newV7 = .ok peerId := by
  have hparse : uuidParse "" = some (Error.failure "invalid UUID") := by decide
  by_cases hc : clientPeerId = "" <;> cases newV7 <;> cases writeRes <;> cases closeRes <;>
    simp_all [resolvePeerId, World.Close, World.WriteMessage]

/-- Registration that returns an error leaves the registry as it was. -/
theorem register_error_peers (peerId : String) (conn : WsConn) (now : Time)
    (closeRes : Option Error) (w : World) (err : Error)
    (h : (register peerId conn now closeRes w).2 = .error err) :
    (register peerId conn now closeRes w).1.Peers = w.Peers := by
  unfold register at *
  cases hl : Load w.Peers peerId <;> cases closeRes <;> simp_all [World.Close]

/-- Registration that succeeds stores the new entry under `peerId` and changes nothing else in
the registry. -/
theorem register_ok_peers (peerId : String) (conn : WsConn) (now : Time)
    (closeRes : Option Error) (w : World)
    (h : (register peerId conn now closeRes w).2 = .ok ()) :
    (register peerId conn now closeRes w).1.Peers = Store w.Peers peerId ⟨conn, now⟩ := by
  unfold register at *
  cases hl : Load w.Peers peerId <;> cases closeRes <;> simp_all [World.Close]

/-- A handler call that fails before or during registration leaves the registry as it was. -/
theorem setup_error_peers (upgradeRes : Except Error WsConn) (clientPeerId : String)
    (newV7 : Except Error String) (writeRes closeRes : Option Error) (now : Time)
    (w : World) (err : Error)
    (h : (setup upgradeRes clientPeerId newV7 writeRes closeRes now w).2 = .error err) :
    (setup upgradeRes clientPeerId newV7 writeRes closeRes now w).1.Peers = w.Peers := by
  cases upgradeRes with
  | error e => simp [setup]
  | ok conn =>
    unfold setup at *
    simp only at *
    rcases hr : resolvePeerId conn clientPeerId newV7 writeRes closeRes w with ⟨w1, r⟩
    have hp := resolvePeerId_peers conn clientPeerId newV7 writeRes closeRes w
    rw [hr] at hp h
    cases r with
    | error e => simpa using hp
    | ok peerId =>
      simp only at h hp ⊢
      rcases hg : register peerId conn now closeRes w1 with ⟨w2, g⟩
      rw [hg] at h
      cases g with
      | error e =>
        have := register_error_peers peerId conn now closeRes w1 e (by rw [hg])
        rw [hg] at this
        simpa [hp] using this
      | ok u => simp at h

/-- A handler call passes registration only for a request without `peerId`, under the
identifier that `uuid.NewV7` generated in that call; it then stores the entry of that
identifier and changes nothing else in the registry. -/
theorem setup_ok (upgradeRes : Except Error WsConn) (clientPeerId : String)
    (newV7 : Except Error String) (writeRes closeRes : Option Error) (now : Time)
    (w : World) (conn : WsConn) (peerId : String)
    (h : (setup upgradeRes clientPeerId newV7 writeRes closeRes now w).2
      = .ok (conn, peerId)) :
    upgradeRes = .ok conn ∧ clientPeerId = "" ∧ newV7 = .ok peerId ∧
    (setup upgradeRes clientPeerId newV7 writeRes closeRes now w).1.Peers
      = Store w.Peers peerId ⟨conn, now⟩ := by
  cases upgradeRes with
  | error e => simp [setup] at h
  | ok conn1 =>
    unfold setup at *
    simp only at *
    rcases hr : resolvePeerId conn1 clientPeerId newV7 writeRes closeRes w with ⟨w1, r⟩
    have hp := resolvePeerId_peers conn1 clientPeerId newV7 writeRes closeRes w
    have hk := resolvePeerId_ok conn1 clientPeerId newV7 writeRes closeRes w
    rw [hr] at hp h hk
    cases r with
    | error e => simp at h
    | ok peerId1 =>
      simp only at h hp hk ⊢
      rcases hg : register peerId1 conn1 now closeRes w1 with ⟨w2, g⟩
      rw [hg] at h
      cases g with
      | error e => simp at h
      | ok u =>
        simp only [Except.ok.injEq, Prod.mk.injEq] at h
        obtain ⟨h1, h2⟩ := h
        subst h1 h2
        have := register_ok_peers peerId1 conn1 now closeRes w1 (by rw [hg])
        rw [hg] at this
        exact ⟨rfl, (hk peerId1 rfl).1, (hk peerId1 rfl).2, by simpa [hp] using this⟩

/-- A round of the read loop leaves the registry as it was. -/
theorem routerStep_peers (unmarshal : Bytes → Except Error Payload) (conn : WsConn)
    (readRes : Except Error Bytes) (writeRes : Option Error) (w : World) :
    (routerStep unmarshal conn readRes writeRes w).1.Peers = w.Peers := by
  unfold routerStep
  repeat' split
  all_goals simp [World.WriteMessage]

/-- The first part of the deferred function leaves the registry as it was. -/
theorem cleanupClose_peers (peerId : String) (closeRes : Option Error) (w : World) :
    (cleanupClose peerId closeRes w).1.Peers = w.Peers := by
  unfold cleanupClose
  repeat' split
  all_goals simp [World.Close]

/-- The deferred function is its two parts in a row. -/
theorem cleanup_eq_close_then_delete (peerId : String) (closeRes : Option Error) (w : World) :
    cleanup peerId closeRes w =
      if (cleanupClose peerId closeRes w).2
      then cleanupDelete peerId (cleanupClose peerId closeRes w).1
      else (cleanupClose peerId closeRes w).1 := by
  unfold cleanup cleanupClose cleanupDelete
  cases Load w.Peers peerId <;> cases closeRes <;> simp [World.Close]

/-- A change of phase keeps the identifiers of the sessions. -/
theorem setHandler_map_peerId (id : String) (h : HandlerPhase) (l : List Session) :
    (setHandler id h l).map (fun x => x.peerId) = l.map (fun x => x.peerId) := by
  induction l with
  | nil => rfl
  | cons a t ih =>
    simp only [setHandler, List.map_cons, List.cons.injEq] at ih ⊢
    exact ⟨by split <;> rfl, ih⟩

/-- A change of phase keeps the identifiers of the sessions. -/
theorem setHeartbeat_map_peerId (id : String) (h : HeartbeatPhase) (l : List Session) :
    (setHeartbeat id h l).map (fun x => x.peerId) = l.map (fun x => x.peerId) := by
  induction l with
  | nil => rfl
  | cons a t ih =>
    simp only [setHeartbeat, List.map_cons, List.cons.injEq] at ih ⊢
    exact ⟨by split <;> rfl, ih⟩

/-- A session stays registered, with its identifier and connection, when the phase of a
handler changes. -/
theorem mem_setHandler (id : String) (h : HandlerPhase) (l : List Session) (sess : Session)
    (hs : sess ∈ l) :
    ∃ t ∈ setHandler id h l, t.peerId = sess.peerId ∧ t.conn = sess.conn := by
  by_cases hi : sess.peerId = id
  · exact ⟨{ sess with handler := h }, List.mem_map.mpr ⟨sess, hs, by simp [hi]⟩, rfl, rfl⟩
  · exact ⟨sess, List.mem_map.mpr ⟨sess, hs, by simp [hi]⟩, rfl, rfl⟩

/-- A session stays registered, with its identifier and connection, when the phase of a
heartbeat changes. -/
theorem mem_setHeartbeat (id : String) (h : HeartbeatPhase) (l : List Session)
    (sess : Session) (hs : sess ∈ l) :
    ∃ t ∈ setHeartbeat id h l, t.peerId = sess.peerId ∧ t.conn = sess.conn := by
  by_cases hi : sess.peerId = id
  · exact ⟨{ sess with heartbeat := h }, List.mem_map.mpr ⟨sess, hs, by simp [hi]⟩, rfl, rfl⟩
  · exact ⟨sess, List.mem_map.mpr ⟨sess, hs, by simp [hi]⟩, rfl, rfl⟩

/-- The session found under an identifier is registered and has that identifier. -/
theorem session_mem (s : Relay) (id : String) (sess : Session)
    (h : s.session id = some sess) : sess ∈ s.sessions ∧ sess.peerId = id := by
  unfold Relay.session at h
  exact ⟨List.mem_of_find?_eq_some h, by simpa using List.find?_some h⟩

/-- Ownership survives a change of the world that keeps the registry, and a change of phases. -/
theorem owned_of_same (s : Relay) (w : World) (l : List Session) (hown : s.Owned)
    (hw : w.Peers = s.world.Peers)
    (hids : l.map (fun x => x.peerId) = s.sessions.map (fun x => x.peerId))
    (hmem : ∀ sess ∈ s.sessions, ∃ t ∈ l, t.peerId = sess.peerId ∧ t.conn = sess.conn) :
    Relay.Owned ⟨w, l⟩ := by
  refine ⟨by simpa [hids] using hown.1, fun id pc hpc => ?_⟩
  have hpc1 : Load s.world.Peers id = some pc := by simpa [hw] using hpc
  obtain ⟨sess, hs, hid, hconn⟩ := hown.2 id pc hpc1
  obtain ⟨t, ht, htid, htconn⟩ := hmem sess hs
  exact ⟨t, ht, htid.trans hid, htconn.trans hconn⟩

/-- Ownership survives the removal of an entry. -/
theorem owned_delete (s : Relay) (id : String) (l : List Session) (hown : s.Owned)
    (hids : l.map (fun x => x.peerId) = s.sessions.map (fun x => x.peerId))
    (hmem : ∀ sess ∈ s.sessions, ∃ t ∈ l, t.peerId = sess.peerId ∧ t.conn = sess.conn) :
    Relay.Owned ⟨cleanupDelete id s.world, l⟩ := by
  refine ⟨by simpa [hids] using hown.1, fun k pc hpc => ?_⟩
  have hpc1 : Load s.world.Peers k = some pc := by
    simp only [cleanupDelete, Load, Delete] at hpc
    split at hpc
    · simp at hpc
    · exact hpc
  obtain ⟨sess, hs, hid, hconn⟩ := hown.2 k pc hpc1
  obtain ⟨t, ht, htid, htconn⟩ := hmem sess hs
  exact ⟨t, ht, htid.trans hid, htconn.trans hconn⟩

/-- Every step keeps ownership. -/
theorem owned_exec (unmarshal : Bytes → Except Error Payload) (step : Step) (s : Relay)
    (hown : s.Owned) : (exec unmarshal step s).Owned := by
  cases step with
  | connect upgradeRes clientPeerId newV7 writeRes closeRes now =>
    simp only [exec]
    rcases hr : setup upgradeRes clientPeerId newV7 writeRes closeRes now s.world with ⟨w1, r⟩
    cases r with
    | error e =>
      have hp := setup_error_peers upgradeRes clientPeerId newV7 writeRes closeRes now s.world e
        (by rw [hr])
      rw [hr] at hp
      exact owned_of_same s w1 s.sessions hown hp rfl (fun sess hs => ⟨sess, hs, rfl, rfl⟩)
    | ok p =>
      obtain ⟨conn, peerId⟩ := p
      have hk := setup_ok upgradeRes clientPeerId newV7 writeRes closeRes now s.world conn
        peerId (by rw [hr])
      rw [hr] at hk
      simp only
      split
      · exact hown
      · rename_i hfresh
        have hnone : s.session peerId = none := by
          cases hsess : s.session peerId with
          | none => rfl
          | some x => simp [hsess] at hfresh
        have hnot : ∀ x ∈ s.sessions, x.peerId ≠ peerId := by
          intro x hx hxid
          unfold Relay.session at hnone
          have := List.find?_eq_none.mp hnone x hx
          simp [hxid] at this
        refine ⟨?_, fun id pc hpc => ?_⟩
        · simp only [List.map_append, List.map_cons, List.map_nil]
          refine List.Nodup.append hown.1 (List.nodup_singleton _) ?_
          intro a ha hb
          simp only [List.mem_singleton] at hb
          obtain ⟨x, hx, hxa⟩ := List.mem_map.mp ha
          exact hnot x hx (hxa.trans hb)
        · simp only at hpc
          rw [hk.2.2.2] at hpc
          by_cases hid : id = peerId
          · subst hid
            have hpc1 : pc = ⟨conn, now⟩ := by simpa [Load, Store] using hpc.symm
            exact ⟨⟨id, conn, .reading, .waiting⟩, by simp, rfl, by simp [hpc1]⟩
          · have hpc1 : Load s.world.Peers id = some pc := by
              simpa [Load, Store, hid] using hpc
            obtain ⟨sess, hs, hsid, hconn⟩ := hown.2 id pc hpc1
            exact ⟨sess, List.mem_append_left _ hs, hsid, hconn⟩
  | round peerId readRes writeRes =>
    simp only [exec]
    cases hsess : s.session peerId with
    | none => exact hown
    | some sess =>
      simp only
      split
      · have hp := routerStep_peers unmarshal sess.conn readRes writeRes s.world
        rcases hr : routerStep unmarshal sess.conn readRes writeRes s.world with ⟨w1, r⟩
        rw [hr] at hp
        cases r with
        | continueLoop =>
          exact owned_of_same s w1 s.sessions hown hp rfl (fun x hx => ⟨x, hx, rfl, rfl⟩)
        | breakLoop =>
          exact owned_of_same s w1 _ hown hp (setHandler_map_peerId _ _ _)
            (fun x hx => mem_setHandler _ _ _ x hx)
        | returnErr err =>
          exact owned_of_same s w1 _ hown hp (setHandler_map_peerId _ _ _)
            (fun x hx => mem_setHandler _ _ _ x hx)
      · exact hown
  | deferredClose peerId closeRes =>
    simp only [exec]
    cases hsess : s.session peerId with
    | none => exact hown
    | some sess =>
      simp only
      split
      · have hp := cleanupClose_peers peerId closeRes s.world
        rcases hr : cleanupClose peerId closeRes s.world with ⟨w1, b⟩
        rw [hr] at hp
        cases b <;>
          exact owned_of_same s w1 _ hown hp (setHandler_map_peerId _ _ _)
            (fun x hx => mem_setHandler _ _ _ x hx)
      · exact hown
  | deferredDelete peerId =>
    simp only [exec]
    cases hsess : s.session peerId with
    | none => exact hown
    | some sess =>
      simp only
      split
      · exact owned_delete s peerId _ hown (setHandler_map_peerId _ _ _)
          (fun x hx => mem_setHandler _ _ _ x hx)
      · exact hown
  | heartbeatLoad peerId =>
    simp only [exec]
    cases hsess : s.session peerId with
    | none => exact hown
    | some sess =>
      simp only
      split
      · split <;>
          exact owned_of_same s s.world _ hown rfl (setHeartbeat_map_peerId _ _ _)
            (fun x hx => mem_setHeartbeat _ _ _ x hx)
      · exact hown
  | heartbeatStore peerId now =>
    simp only [exec]
    cases hsess : s.session peerId with
    | none => exact hown
    | some sess =>
      simp only
      split
      · obtain ⟨hmem, hid⟩ := session_mem s peerId sess hsess
        refine ⟨by simpa [setHeartbeat_map_peerId] using hown.1, fun k pc hpc => ?_⟩
        by_cases hk : k = peerId
        · subst hk
          have hpc1 : pc = ⟨sess.conn, now⟩ := by
            simpa [heartbeatStore, Load, Store] using hpc.symm
          obtain ⟨t, ht, htid, htconn⟩ := mem_setHeartbeat k .waiting s.sessions sess hmem
          exact ⟨t, ht, htid.trans hid, by simp [htconn, hpc1]⟩
        · have hpc1 : Load s.world.Peers k = some pc := by
            simpa [heartbeatStore, Load, Store, hk] using hpc
          obtain ⟨x, hx, hxid, hconn⟩ := hown.2 k pc hpc1
          obtain ⟨t, ht, htid, htconn⟩ := mem_setHeartbeat peerId .waiting s.sessions x hx
          exact ⟨t, ht, htid.trans hxid, htconn.trans hconn⟩
      · exact hown

/-- Every state the process reaches from a state with ownership has ownership. -/
theorem owned_runSteps (unmarshal : Bytes → Except Error Payload) (steps : List Step)
    (s : Relay) (hown : s.Owned) : (runSteps unmarshal steps s).Owned := by
  induction steps generalizing s with
  | nil => exact hown
  | cons step rest ih => exact ih _ (owned_exec unmarshal step s hown)

/-- The process at start has ownership: the registry is empty. -/
theorem owned_init : Relay.init.Owned :=
  ⟨List.nodup_nil, fun id pc h => by simp [Relay.init, World.init, emptyRegistry, Load] at h⟩

/-- An identifier under which no session has registered has no entry. The registration block of
a handler call, which runs under the identifier generated in that call, therefore finds nothing
on line 77, skips lines 78-83 and acts on the registry through the one `Store` on line 86. -/
theorem fresh_identifier_has_no_entry (unmarshal : Bytes → Except Error Payload)
    (steps : List Step) (id : String)
    (hfresh : (runSteps unmarshal steps Relay.init).session id = none) :
    Load (runSteps unmarshal steps Relay.init).world.Peers id = none := by
  have hown := owned_runSteps unmarshal steps Relay.init owned_init
  cases hl : Load (runSteps unmarshal steps Relay.init).world.Peers id with
  | none => rfl
  | some pc =>
    obtain ⟨sess, hs, hid, _⟩ := hown.2 id pc hl
    unfold Relay.session at hfresh
    have := List.find?_eq_none.mp hfresh sess hs
    simp [hid] at this

/-- With pairwise different identifiers, the sessions registered under the identifier of a
given session are that session alone. -/
theorem filter_peerId_eq_singleton (l : List Session) (sess : Session)
    (hnd : (l.map (fun x => x.peerId)).Nodup) (hs : sess ∈ l) :
    l.filter (fun x => x.peerId = sess.peerId) = [sess] := by
  induction l with
  | nil => simp at hs
  | cons b t ih =>
    simp only [List.map_cons, List.nodup_cons, List.mem_map, not_exists, not_and] at hnd
    rcases List.mem_cons.mp hs with h | h
    · subst h
      have hnone : t.filter (fun x => x.peerId = sess.peerId) = [] := by
        rw [List.filter_eq_nil_iff]
        intro x hx hxe
        exact hnd.1 x hx (by simpa using hxe)
      simp [List.filter_cons, hnone]
    · have hb : ¬ b.peerId = sess.peerId := fun hbe => hnd.1 sess h hbe.symm
      simp [List.filter_cons, hb, ih hnd.2 h]

/-- C5. In every state the process reaches from its start by handler calls, rounds of read
loops, heartbeat checks and writes, and deferred clean-ups, an identifier that is present in
the registry holds the connection registered last under it, and every connection registered
earlier under it is closed. The handler registers only under identifiers that `uuid.NewV7`
generated in the same call, so the connection stored is the one connection ever registered
under the identifier. -/
theorem C5_latest_connection_held (unmarshal : Bytes → Except Error Payload)
    (steps : List Step) (id : String) (pc : PeerConnection)
    (hpc : Load (runSteps unmarshal steps Relay.init).world.Peers id = some pc) :
    (registeredUnder (runSteps unmarshal steps Relay.init) id).getLast? = some pc.Conn ∧
    (∀ c ∈ (registeredUnder (runSteps unmarshal steps Relay.init) id).dropLast,
      closed (runSteps unmarshal steps Relay.init).world c) ∧
    registeredUnder (runSteps unmarshal steps Relay.init) id = [pc.Conn] := by
  have hown := owned_runSteps unmarshal steps Relay.init owned_init
  obtain ⟨sess, hs, hid, hconn⟩ := hown.2 id pc hpc
  have hreg : registeredUnder (runSteps unmarshal steps Relay.init) id = [pc.Conn] := by
    unfold registeredUnder
    rw [← hid, filter_peerId_eq_singleton _ sess hown.1 hs]
    simp [hconn]
  rw [hreg]
  simp

/-- C5 (witness). A client connects without `peerId` on connection `1` and is registered under
the generated identifier; its heartbeat checks and writes; a second client connects on
connection `2` under another generated identifier. -/
theorem C5_latest_connection_held_witness :
    (registeredUnder (runSteps exampleUnmarshal
        [Step.connect (.ok 1) "" (.ok sampleUuid) none none 10,
          Step.heartbeatLoad sampleUuid, Step.heartbeatStore sampleUuid 20,
          Step.connect (.ok 2) "" (.ok "018f4e7a-0000-7000-8000-000000000002") none none 30]
        Relay.init) sampleUuid).getLast? = some (PeerConnection.mk 1 20).Conn ∧
    (∀ c ∈ (registeredUnder (runSteps exampleUnmarshal
        [Step.connect (.ok 1) "" (.ok sampleUuid) none none 10,
          Step.heartbeatLoad sampleUuid, Step.heartbeatStore sampleUuid 20,
          Step.connect (.ok 2) "" (.ok "018f4e7a-0000-7000-8000-000000000002") none none 30]
        Relay.init) sampleUuid).dropLast,
      closed (runSteps exampleUnmarshal
        [Step.connect (.ok 1) "" (.ok sampleUuid) none none 10,
          Step.heartbeatLoad sampleUuid, Step.heartbeatStore sampleUuid 20,
          Step.connect (.ok 2) "" (.ok "018f4e7a-0000-7000-8000-000000000002") none none 30]
        Relay.init).world c) ∧
    registeredUnder (runSteps exampleUnmarshal
        [Step.connect (.ok 1) "" (.ok sampleUuid) none none 10,
          Step.heartbeatLoad sampleUuid, Step.heartbeatStore sampleUuid 20,
          Step.connect (.ok 2) "" (.ok "018f4e7a-0000-7000-8000-000000000002") none none 30]
        Relay.init) sampleUuid = [(PeerConnection.mk 1 20).Conn] :=
  C5_latest_connection_held exampleUnmarshal
    [Step.connect (.ok 1) "" (.ok sampleUuid) none none 10,
      Step.heartbeatLoad sampleUuid, Step.heartbeatStore sampleUuid 20,
      Step.connect (.ok 2) "" (.ok "018f4e7a-0000-7000-8000-000000000002") none none 30]
    sampleUuid ⟨1, 20⟩ (by decide)

/-! ### The heartbeat of a session -/

/-- The session found under an identifier after a change of handler phase. -/
theorem find_setHandler (id X : String) (h : HandlerPhase) (l : List Session) :
    (setHandler id h l).find? (fun x => x.peerId = X)
      = (l.find? (fun x => x.peerId = X)).map
          (fun x => if x.peerId = id then { x with handler := h } else x) := by
  unfold setHandler
  rw [List.find?_map]
  have hp : ((fun x : Session => decide (x.peerId = X)) ∘
      fun x => if x.peerId = id then { x with handler := h } else x)
      = fun x : Session => decide (x.peerId = X) := by
    funext x
    simp only [Function.comp]
    split <;> rfl
  rw [hp]

/-- The session found under an identifier after a change of heartbeat phase. -/
theorem find_setHeartbeat (id X : String) (h : HeartbeatPhase) (l : List Session) :
    (setHeartbeat id h l).find? (fun x => x.peerId = X)
      = (l.find? (fun x => x.peerId = X)).map
          (fun x => if x.peerId = id then { x with heartbeat := h } else x) := by
  unfold setHeartbeat
  rw [List.find?_map]
  have hp : ((fun x : Session => decide (x.peerId = X)) ∘
      fun x => if x.peerId = id then { x with heartbeat := h } else x)
      = fun x : Session => decide (x.peerId = X) := by
    funext x
    simp only [Function.comp]
    split <;> rfl
  rw [hp]

/-- In a state with ownership, the entry under the identifier of a session holds the connection
of that session. -/
theorem entry_belongs_to_session (s : Relay) (hown : s.Owned) (X : String) (sess : Session)
    (old : PeerConnection) (hsess : s.session X = some sess)
    (hold : Load s.world.Peers X = some old) : old.Conn = sess.conn := by
  obtain ⟨hmem, hid⟩ := session_mem s X sess hsess
  obtain ⟨t, ht, htid, htconn⟩ := hown.2 X old hold
  have : t = sess :=
    List.inj_on_of_nodup_map hown.1 ht hmem (htid.trans hid.symm)
  rw [← htconn, this]

/-- A step keeps every registered session registered, with its connection; a heartbeat that has
returned stays returned. -/
theorem exec_session (unmarshal : Bytes → Except Error Payload) (step : Step) (s : Relay)
    (X : String) (sess : Session) (hsess : s.session X = some sess) :
    ∃ t, (exec unmarshal step s).session X = some t ∧ t.conn = sess.conn ∧
      (sess.heartbeat = .stopped → t.heartbeat = .stopped) := by
  have hX : sess.peerId = X := (session_mem s X sess hsess).2
  have keep : ∃ t, s.session X = some t ∧ t.conn = sess.conn ∧
      (sess.heartbeat = .stopped → t.heartbeat = .stopped) := ⟨sess, hsess, rfl, id⟩
  have viaHandler : ∀ (w : World) (id : String) (h : HandlerPhase),
      ∃ t, (Relay.mk w (setHandler id h s.sessions)).session X = some t ∧
        t.conn = sess.conn ∧ (sess.heartbeat = .stopped → t.heartbeat = .stopped) := by
    intro w id h
    unfold Relay.session at hsess ⊢
    rw [find_setHandler, hsess]
    refine ⟨_, rfl, ?_, fun hst => ?_⟩ <;> dsimp only
    · split <;> rfl
    · split <;> exact hst
  cases step with
  | connect upgradeRes clientPeerId newV7 writeRes closeRes now =>
    simp only [exec]
    rcases setup upgradeRes clientPeerId newV7 writeRes closeRes now s.world with ⟨w1, r⟩
    cases r with
    | error e => exact keep
    | ok p =>
      simp only
      split
      · exact keep
      · refine ⟨sess, ?_, rfl, id⟩
        unfold Relay.session at hsess ⊢
        simp [List.find?_append, hsess]
  | round peerId readRes writeRes =>
    simp only [exec]
    cases hs1 : s.session peerId with
    | none => exact keep
    | some s1 =>
      simp only
      split
      · rcases routerStep unmarshal s1.conn readRes writeRes s.world with ⟨w1, r⟩
        cases r with
        | continueLoop => exact keep
        | breakLoop => exact viaHandler _ _ _
        | returnErr err => exact viaHandler _ _ _
      · exact keep
  | deferredClose peerId closeRes =>
    simp only [exec]
    cases hs1 : s.session peerId with
    | none => exact keep
    | some s1 =>
      simp only
      split
      · rcases cleanupClose peerId closeRes s.world with ⟨w1, b⟩
        cases b <;> exact viaHandler _ _ _
      · exact keep
  | deferredDelete peerId =>
    simp only [exec]
    cases hs1 : s.session peerId with
    | none => exact keep
    | some s1 =>
      simp only
      split
      · exact viaHandler _ _ _
      · exact keep
  | heartbeatLoad peerId =>
    simp only [exec]
    cases hs1 : s.session peerId with
    | none => exact keep
    | some s1 =>
      simp only
      split
      · rename_i hwait
        have hne : ∀ (h : HeartbeatPhase),
            ∃ t, (Relay.mk s.world (setHeartbeat peerId h s.sessions)).session X = some t ∧
              t.conn = sess.conn ∧ (sess.heartbeat = .stopped → t.heartbeat = .stopped) := by
          intro h
          unfold Relay.session at hsess ⊢
          rw [find_setHeartbeat, hsess]
          refine ⟨_, rfl, ?_, fun hst => ?_⟩ <;> dsimp only
          · split <;> rfl
          · split
            · rename_i hi
              have : s1 = sess := by
                have h1 : s.session X = some s1 := by rw [← hX, hi]; exact hs1
                unfold Relay.session at h1
                rw [hsess] at h1
                exact (Option.some.inj h1).symm
              rw [this, hst] at hwait
              cases hwait
            · exact hst
        split
        · exact hne _
        · exact hne _
      · exact keep
  | heartbeatStore peerId now =>
    simp only [exec]
    cases hs1 : s.session peerId with
    | none => exact keep
    | some s1 =>
      simp only
      split
      · rename_i hloaded
        unfold Relay.session at hsess ⊢
        rw [find_setHeartbeat, hsess]
        refine ⟨_, rfl, ?_, fun hst => ?_⟩ <;> dsimp only
        · split <;> rfl
        · split
          · rename_i hi
            have : s1 = sess := by
              have h1 : s.session X = some s1 := by rw [← hX, hi]; exact hs1
              unfold Relay.session at h1
              rw [hsess] at h1
              exact (Option.some.inj h1).symm
            rw [this, hst] at hloaded
            cases hloaded
          · exact hst
      · exact keep

/-- The same over any number of steps. -/
theorem runSteps_session (unmarshal : Bytes → Except Error Payload) (steps : List Step)
    (s : Relay) (X : String) (sess : Session) (hsess : s.session X = some sess) :
    ∃ t, (runSteps unmarshal steps s).session X = some t ∧ t.conn = sess.conn ∧
      (sess.heartbeat = .stopped → t.heartbeat = .stopped) := by
  induction steps generalizing s sess with
  | nil => exact ⟨sess, hsess, rfl, id⟩
  | cons step rest ih =>
    obtain ⟨t, ht, hc, hst⟩ := exec_session unmarshal step s X sess hsess
    obtain ⟨t2, ht2, hc2, hst2⟩ := ih (exec unmarshal step s) t ht
    exact ⟨t2, ht2, hc2.trans hc, fun h => hst2 (hst h)⟩

/-- A heartbeat that has returned takes no further step: its check and its write leave every
later state of the process as it is. -/
theorem stopped_heartbeat_is_silent (unmarshal : Bytes → Except Error Payload) (s : Relay)
    (X : String) (sess : Session) (hsess : s.session X = some sess)
    (hstop : sess.heartbeat = .stopped) (more : List Step) (t : Time) :
    exec unmarshal (.heartbeatLoad X) (runSteps unmarshal more s) = runSteps unmarshal more s ∧
    exec unmarshal (.heartbeatStore X t) (runSteps unmarshal more s)
      = runSteps unmarshal more s := by
  obtain ⟨u, hu, _, hst⟩ := runSteps_session unmarshal more s X sess hsess
  have hu2 := hst hstop
  constructor <;> simp [exec, hu, hu2]

/-- C10. The heartbeat of a registered session, with identifier `X`, in any state the process
can be in. Its check (line 107) changes nothing in the world. If the check finds no entry for
`X`, the goroutine returns, and from then on it takes no step: the registry gets no further
write from it. If the check finds an entry, that entry holds the connection of the session,
and the write (line 110) that follows puts the fresh timestamp under `X` with the same
connection handle, changes no other entry and makes no call on any connection. The write has
this effect on whatever state it meets, also when other goroutines have taken steps since the
check. -/
theorem C10_heartbeat (unmarshal : Bytes → Except Error Payload) (s : Relay) (X : String)
    (sess : Session) (now : Time) (hreach : Reachable unmarshal s)
    (hsess : s.session X = some sess) :
    (sess.heartbeat = .waiting → Load s.world.Peers X = none →
      (exec unmarshal (.heartbeatLoad X) s).world = s.world ∧
      (exec unmarshal (.heartbeatLoad X) s).session X
        = some { sess with heartbeat := .stopped }) ∧
    (sess.heartbeat = .stopped → ∀ (more : List Step) (t : Time),
      exec unmarshal (.heartbeatLoad X) (runSteps unmarshal more s)
        = runSteps unmarshal more s ∧
      exec unmarshal (.heartbeatStore X t) (runSteps unmarshal more s)
        = runSteps unmarshal more s) ∧
    (sess.heartbeat = .waiting → ∀ old, Load s.world.Peers X = some old →
      old.Conn = sess.conn ∧
      (exec unmarshal (.heartbeatLoad X) s).world = s.world ∧
      (exec unmarshal (.heartbeatLoad X) s).session X
        = some { sess with heartbeat := .loaded } ∧
      Load (exec unmarshal (.heartbeatStore X now)
          (exec unmarshal (.heartbeatLoad X) s)).world.Peers X = some ⟨old.Conn, now⟩ ∧
      (∀ k, k ≠ X →
        Load (exec unmarshal (.heartbeatStore X now)
          (exec unmarshal (.heartbeatLoad X) s)).world.Peers k = Load s.world.Peers k) ∧
      (exec unmarshal (.heartbeatStore X now)
          (exec unmarshal (.heartbeatLoad X) s)).world.events = s.world.events) ∧
    (sess.heartbeat = .loaded →
      Load (exec unmarshal (.heartbeatStore X now) s).world.Peers X
        = some ⟨sess.conn, now⟩ ∧
      (∀ k, k ≠ X →
        Load (exec unmarshal (.heartbeatStore X now) s).world.Peers k
          = Load s.world.Peers k) ∧
      (exec unmarshal (.heartbeatStore X now) s).world.events = s.world.events ∧
      (exec unmarshal (.heartbeatStore X now) s).session X
        = some { sess with heartbeat := .waiting }) := by
  obtain ⟨steps, hsteps⟩ := hreach
  have hown : s.Owned := by
    rw [← hsteps]
    exact owned_runSteps unmarshal steps Relay.init owned_init
  have hX : sess.peerId = X := (session_mem s X sess hsess).2
  have hfind : s.sessions.find? (fun x => x.peerId = X) = some sess := hsess
  have hstore : ∀ (s1 : Relay) (u : Session), s1.session X = some u →
      u.heartbeat = .loaded →
      Load (exec unmarshal (.heartbeatStore X now) s1).world.Peers X = some ⟨u.conn, now⟩ ∧
      (∀ k, k ≠ X →
        Load (exec unmarshal (.heartbeatStore X now) s1).world.Peers k
          = Load s1.world.Peers k) ∧
      (exec unmarshal (.heartbeatStore X now) s1).world.events = s1.world.events ∧
      (exec unmarshal (.heartbeatStore X now) s1).session X
        = some { u with heartbeat := .waiting } := by
    intro s1 u hu hl
    have huX : u.peerId = X := (session_mem s1 X u hu).2
    have hufind : s1.sessions.find? (fun x => x.peerId = X) = some u := hu
    refine ⟨by simp [exec, hu, hl, heartbeatStore, Load, Store], ?_,
      by simp [exec, hu, hl, heartbeatStore], ?_⟩
    · intro k hk
      simp [exec, hu, hl, heartbeatStore, Load, Store, hk]
    · simp [exec, hu, hl, Relay.session, find_setHeartbeat, hufind, huX]
  refine ⟨fun hw habs => ?_, fun hstop more t =>
    stopped_heartbeat_is_silent unmarshal s X sess hsess hstop more t, fun hw old hold => ?_,
    fun hl => hstore s sess hsess hl⟩
  · have habs1 : (Load s.world.Peers X).isSome = false := by simp [habs]
    refine ⟨by simp [exec, hsess, hw, heartbeatLoad, habs1], ?_⟩
    simp [exec, hsess, hw, heartbeatLoad, habs1, Relay.session, find_setHeartbeat, hfind, hX]
  · have hold1 : (Load s.world.Peers X).isSome = true := by simp [hold]
    have hconn := entry_belongs_to_session s hown X sess old hsess hold
    have hworld : (exec unmarshal (.heartbeatLoad X) s).world = s.world := by
      simp [exec, hsess, hw, heartbeatLoad, hold1]
    have hsess2 : (exec unmarshal (.heartbeatLoad X) s).session X
        = some { sess with heartbeat := .loaded } := by
      simp [exec, hsess, hw, heartbeatLoad, hold1, Relay.session, find_setHeartbeat, hfind, hX]
    obtain ⟨h1, h2, h3, _⟩ := hstore _ _ hsess2 rfl
    refine ⟨hconn, hworld, hsess2, ?_, ?_, ?_⟩
    · simpa [hconn] using h1
    · intro k hk
      rw [h2 k hk, hworld]
    · rw [h3, hworld]

/-- C10 (witness). A client is registered under a generated identifier with connection `1` at
time `10`. In that state its heartbeat checks and writes at time `20`. In the state after its
read failed and its deferred function removed the entry, its heartbeat checks and returns. -/
theorem C10_heartbeat_witness :
    Load (exec exampleUnmarshal (.heartbeatStore sampleUuid 20)
        (exec exampleUnmarshal (.heartbeatLoad sampleUuid)
          (runSteps exampleUnmarshal [Step.connect (.ok 1) "" (.ok sampleUuid) none none 10]
            Relay.init))).world.Peers sampleUuid
        = some ⟨(PeerConnection.mk 1 10).Conn, 20⟩ ∧
    (exec exampleUnmarshal (.heartbeatLoad sampleUuid)
        (runSteps exampleUnmarshal
          [Step.connect (.ok 1) "" (.ok sampleUuid) none none 10,
            Step.round sampleUuid (.error (Error.failure "connection reset")) none,
            Step.deferredClose sampleUuid none, Step.deferredDelete sampleUuid]
          Relay.init)).session sampleUuid
        = some ⟨sampleUuid, 1, .returned none, .stopped⟩ :=
  ⟨((C10_heartbeat exampleUnmarshal
      (runSteps exampleUnmarshal [Step.connect (.ok 1) "" (.ok sampleUuid) none none 10]
        Relay.init)
      sampleUuid ⟨sampleUuid, 1, .reading, .waiting⟩ 20 ⟨_, rfl⟩ (by decide)).2.2.1 rfl
      ⟨1, 10⟩ (by decide)).2.2.2.1,
    ((C10_heartbeat exampleUnmarshal
      (runSteps exampleUnmarshal
        [Step.connect (.ok 1) "" (.ok sampleUuid) none none 10,
          Step.round sampleUuid (.error (Error.failure "connection reset")) none,
          Step.deferredClose sampleUuid none, Step.deferredDelete sampleUuid]
        Relay.init)
      sampleUuid ⟨sampleUuid, 1, .returned none, .waiting⟩ 20 ⟨_, rfl⟩ (by decide)).1 rfl
      (by decide)).2⟩

/-- The deferred function of a session, in any state the process can be in: when it finds an
entry under the identifier of the session, the connection it closes is the connection of that
session. -/
theorem deferred_closes_own_connection (unmarshal : Bytes → Except Error Payload)
    (s : Relay) (X : String) (sess : Session) (res closeRes : Option Error)
    (old : PeerConnection) (hreach : Reachable unmarshal s)
    (hsess : s.session X = some sess) (hphase : sess.handler = .exiting res)
    (hold : Load s.world.Peers X = some old) :
    callsSince s.world (exec unmarshal (.deferredClose X closeRes) s).world
      = [Event.close sess.conn closeRes] := by
  obtain ⟨steps, hsteps⟩ := hreach
  have hown : s.Owned := by
    rw [← hsteps]
    exact owned_runSteps unmarshal steps Relay.init owned_init
  have hconn := entry_belongs_to_session s hown X sess old hsess hold
  have hold1 : s.world.Peers X = some old := hold
  cases closeRes <;>
    simp [exec, hsess, hphase, cleanupClose, Load, hold1, World.Close, callsSince, hconn]

/-- C9 (evaluation at the failing input). A client connects without `peerId` on connection `1`
and is registered under the generated identifier `X`; a second client then connects on
connection `2` with `peerId` set to `X`. The second handler closes connection `2` and registers
nothing: the one session under `X` is the first, and the entry under `X` still holds
connection `1`. When the read of the first session fails, its deferred function closes
connection `1`, its own, and removes its own entry. -/
theorem C9_second_session_is_not_registered :
    (runSteps exampleUnmarshal
        [Step.connect (.ok 1) "" (.ok sampleUuid) none none 10,
          Step.connect (.ok 2) sampleUuid (.ok "unused") none none 20]
        Relay.init).sessions = [⟨sampleUuid, 1, .reading, .waiting⟩] ∧
    Load (runSteps exampleUnmarshal
        [Step.connect (.ok 1) "" (.ok sampleUuid) none none 10,
          Step.connect (.ok 2) sampleUuid (.ok "unused") none none 20]
        Relay.init).world.Peers sampleUuid = some ⟨1, 10⟩ ∧
    (runSteps exampleUnmarshal
        [Step.connect (.ok 1) "" (.ok sampleUuid) none none 10,
          Step.connect (.ok 2) sampleUuid (.ok "unused") none none 20]
        Relay.init).world.events
        = [Event.writeMessage 1 (bytesOf sampleUuid) none, Event.close 2 none] ∧
    Load (runSteps exampleUnmarshal
        [Step.connect (.ok 1) "" (.ok sampleUuid) none none 10,
          Step.connect (.ok 2) sampleUuid (.ok "unused") none none 20,
          Step.round sampleUuid (.error (Error.failure "connection reset")) none,
          Step.deferredClose sampleUuid none, Step.deferredDelete sampleUuid]
        Relay.init).world.Peers sampleUuid = none ∧
    callsSince
        (runSteps exampleUnmarshal
          [Step.connect (.ok 1) "" (.ok sampleUuid) none none 10,
            Step.connect (.ok 2) sampleUuid (.ok "unused") none none 20]
          Relay.init).world
        (runSteps exampleUnmarshal
          [Step.connect (.ok 1) "" (.ok sampleUuid) none none 10,
            Step.connect (.ok 2) sampleUuid (.ok "unused") none none 20,
            Step.round sampleUuid (.error (Error.failure "connection reset")) none,
            Step.deferredClose sampleUuid none, Step.deferredDelete sampleUuid]
          Relay.init).world = [Event.close 1 none] := by
  decide

end Signaling
